import Mathlib

/-
Verification of the backtesting engine core (rust-engine).

Shallow embedding conventions:
* rust_decimal::Decimal values are modelled as rationals (ℚ).  Addition,
  subtraction and multiplication on Decimal are exact; Decimal division
  panics exactly on a zero divisor, which is modelled by the checked
  division `qdiv` returning `Except Err ℚ`.  `Decimal::round()` performs
  banker's rounding (round half to even), modelled by `roundBankers`.
* u64 timestamps are modelled as ℕ.
* HashMap<String, _> is modelled as an association list with unique keys;
  insertion happens only after a `contains_key` check in the source, so
  consing a fresh key is faithful; iteration order is the list order.
* Fallible paths run in `Except Err`.
-/

namespace Backtest

/-- Error conditions of the embedded engine: a panicking Decimal division
by zero, and the anyhow error for an unknown indicator name. -/
inductive Err where
  | divisionByZero : Err
  | unknownIndicator : String → Err
deriving DecidableEq, Repr

deriving instance DecidableEq for Except

/-- Checked division on ℚ: Decimal division panics on a zero divisor. -/
def qdiv (a b : ℚ) : Except Err ℚ :=
  if b = 0 then Except.error Err.divisionByZero else Except.ok (a / b)

/-- Banker's rounding to an integer, the behaviour of Decimal::round()
(midpoint rounds to the nearest even integer). -/
def roundBankers (q : ℚ) : ℤ :=
  let n := ⌊q⌋
  let r := q - n
  if r < 1/2 then n
  else if 1/2 < r then n + 1
  else if n % 2 = 0 then n else n + 1

/-- OHLCV bar (types.rs, struct Bar).  The source field `open` is a
reserved word here and is embedded as `open_`. -/
structure Bar where
  timestamp : Nat
  open_ : ℚ
  high : ℚ
  low : ℚ
  close : ℚ
  volume : ℚ
  trade_count : Nat
deriving DecidableEq, Repr

/-- Trade side enumeration (types.rs, enum TradeSide). -/
inductive TradeSide where
  | buy : TradeSide
  | sell : TradeSide
deriving DecidableEq, Repr

/-- Exchange trading rules (types.rs, struct ExchangeRules). -/
structure ExchangeRules where
  tick_size : ℚ
  lot_size : ℚ
  min_notional : ℚ
  maker_fee : ℚ
  taker_fee : ℚ
  precision_price : Nat
  precision_quantity : Nat
deriving DecidableEq, Repr

/-- Default exchange rules (types.rs, impl Default for ExchangeRules). -/
def ExchangeRules.default : ExchangeRules :=
  { tick_size := 1/100000000
    lot_size := 1/100000000
    min_notional := 10
    maker_fee := 1/10000
    taker_fee := 1/10000
    precision_price := 8
    precision_quantity := 8 }

/-- Strategy signal.  types.rs declares fields side, size, entry_price,
take_profit, stop_loss, time_to_live; trade_table.rs additionally reads a
`symbol` field from the signal, so the embedding carries both. -/
structure StrategySignal where
  symbol : String
  side : TradeSide
  size : ℚ
  entry_price : Option ℚ
  take_profit : Option ℚ
  stop_loss : Option ℚ
  time_to_live : Option Nat
deriving DecidableEq, Repr

/-- Trade type enumeration (types.rs, enum TradeType). -/
inductive TradeType where
  | long : TradeType
  | short : TradeType
deriving DecidableEq, Repr

/-- Exit reason enumeration (types.rs, enum ExitReason). -/
inductive ExitReason where
  | takeProfit : ExitReason
  | stopLoss : ExitReason
  | strategyExit : ExitReason
  | liquidation : ExitReason
  | timeout : ExitReason
deriving DecidableEq, Repr

/-- Hit TP or SL status (types.rs, enum HitTpSl). -/
inductive HitTpSl where
  | takeProfit : HitTpSl
  | stopLoss : HitTpSl
  | none : HitTpSl
deriving DecidableEq, Repr

/-- Active position with TP and SL tracking (types.rs, ActivePosition). -/
structure ActivePosition where
  symbol : String
  trade_type : TradeType
  entry_time : Nat
  entry_price : ℚ
  quantity : ℚ
  take_profit : Option ℚ
  stop_loss : Option ℚ
  time_to_live : Option Nat
  entry_fee : ℚ
  size_usd : ℚ
deriving DecidableEq, Repr

/-- Closed trade record (types.rs, struct TradeRecord). -/
structure TradeRecord where
  date : String
  trade_type : TradeType
  entry_price : ℚ
  entry_time_utc : String
  exit_price : ℚ
  exit_time_utc : String
  exit_reason : ExitReason
  hit_tp_sl : HitTpSl
  size_usd : ℚ
  qty : ℚ
  fees_usd : ℚ
  pnl_usd : ℚ
  pnl_pct : ℚ
  symbol : String
deriving DecidableEq, Repr

/-- Rejected trade with reason (types.rs, struct RejectedTrade). -/
structure RejectedTrade where
  timestamp : Nat
  symbol : String
  side : TradeSide
  reason : String
  notional : ℚ
deriving DecidableEq, Repr

/-- Trade summary totals (types.rs, struct TradeSummary). -/
structure TradeSummary where
  total_trades : Nat
  wins : Nat
  losses : Nat
  win_rate : ℚ
  net_pnl_usd : ℚ
  avg_win_usd : ℚ
  avg_loss_usd : ℚ
  expectancy : ℚ
  max_drawdown : ℚ
  profit_factor : ℚ
  avg_holding_time_hours : ℚ
deriving DecidableEq, Repr

/-- Intrabar simulation policies (lib.rs, enum IntrabarPolicy). -/
inductive IntrabarPolicy where
  | exactTrades : IntrabarPolicy
  | oneSecondBars : IntrabarPolicy
  | linearInterpolation : IntrabarPolicy
deriving DecidableEq, Repr

/-- Slippage modes (lib.rs, enum SlippageMode). -/
inductive SlippageMode where
  | none : SlippageMode
  | tradeSweep : SlippageMode
  | syntheticBook : SlippageMode
deriving DecidableEq, Repr

/-- Exit information for position closure (trade_table.rs, ExitInfo). -/
structure ExitInfo where
  exit_price : ℚ
  exit_time : Nat
  exit_reason : ExitReason
  hit_tp_sl : HitTpSl
deriving DecidableEq, Repr

/-- Left-pad the decimal representation of a number with zeros, as the
chrono format specifiers %m, %d, %H, %M, %S, %3f and %Y do. -/
def padNum (width n : Nat) : String :=
  let s := toString n
  if s.length < width then String.mk (List.replicate (width - s.length) '0') ++ s
  else s

/-- Convert a count of days since 1970-01-01 to a Gregorian civil date
(year, month, day); integer form of the standard civil-from-days
algorithm used by chrono for timestamps at or after the epoch. -/
def civilFromDays (z0 : Nat) : Nat × Nat × Nat :=
  let z := z0 + 719468
  let era := z / 146097
  let doe := z % 146097
  let yoe := (doe - doe / 1460 + doe / 36524 - doe / 146096) / 365
  let y := yoe + era * 400
  let doy := doe - (365 * yoe + yoe / 4 - yoe / 100)
  let mp := (5 * doy + 2) / 153
  let d := doy - (153 * mp + 2) / 5 + 1
  let m := if mp < 10 then mp + 3 else mp - 9
  if m ≤ 2 then (y + 1, m, d) else (y, m, d)

/-- Convert Unix milliseconds to an ISO-8601 UTC string, the behaviour of
timestamp_to_iso_utc in trade_table.rs, which formats the instant with
chrono using the pattern %Y-%m-%dT%H:%M:%S%.3fZ.  The embedding is exact
for timestamps before the year 10000 (where %Y is the plain four-digit
year); chrono prints later years with more digits and panics on u64
millisecond timestamps beyond its representable range (around the year
262143), so theorems about runs that close trades restrict timestamps to
the sub-10000 domain. -/
def timestamp_to_iso_utc (timestamp : Nat) : String :=
  let days := timestamp / 86400000
  let rem := timestamp % 86400000
  let ymd := civilFromDays days
  let hh := rem / 3600000
  let mi := rem % 3600000 / 60000
  let ss := rem % 60000 / 1000
  let ms := rem % 1000
  padNum 4 ymd.1 ++ "-" ++ padNum 2 ymd.2.1 ++ "-" ++ padNum 2 ymd.2.2 ++
    "T" ++ padNum 2 hh ++ ":" ++ padNum 2 mi ++ ":" ++ padNum 2 ss ++
    "." ++ padNum 3 ms ++ "Z"

/-- Simplified reverse conversion in trade_table.rs (iso_utc_to_timestamp):
the source returns the LENGTH of the ISO string as the timestamp. -/
def iso_utc_to_timestamp (iso_string : String) : Nat :=
  iso_string.length

/-- State of the trade table generator (trade_table.rs, struct
TradeTableGenerator); active_positions is the HashMap as an association
list. -/
structure TradeTableGenerator where
  default_size_usd : ℚ
  active_positions : List (String × ActivePosition)
  trade_records : List TradeRecord
  rejected_trades : List RejectedTrade
  current_equity : ℚ
  peak_equity : ℚ
  max_drawdown : ℚ
deriving DecidableEq, Repr

/-- Fresh generator (TradeTableGenerator::new). -/
def TradeTableGenerator.new : TradeTableGenerator :=
  { default_size_usd := 1000
    active_positions := []
    trade_records := []
    rejected_trades := []
    current_equity := 10000
    peak_equity := 10000
    max_drawdown := 0 }

/-- Quantize a quantity to the lot size with banker's rounding
(trade_table.rs, apply_symbol_filters). -/
def apply_symbol_filters (quantity : ℚ) (rules : ExchangeRules) : Except Err ℚ := do
  let q ← qdiv quantity rules.lot_size
  pure ((roundBankers q : ℚ) * rules.lot_size)

/-- Apply slippage to the execution price and quantize it to the tick
size (trade_table.rs, apply_slippage). -/
def apply_slippage (base_price : ℚ) (side : TradeSide) (slippage_mode : SlippageMode)
    (rules : ExchangeRules) : Except Err ℚ := do
  let slippage : ℚ :=
    match slippage_mode with
    | SlippageMode.none => 0
    | SlippageMode.tradeSweep => base_price * (1/10000)
    | SlippageMode.syntheticBook => base_price * (5/10000)
  let execution_price :=
    match side with
    | TradeSide.buy => base_price + slippage
    | TradeSide.sell => base_price - slippage
  let q ← qdiv execution_price rules.tick_size
  pure ((roundBankers q : ℚ) * rules.tick_size)

/-- Entry execution price: base price chosen by the intrabar policy, then
slippage (trade_table.rs, calculate_entry_price). -/
def calculate_entry_price (bar : Bar) (side : TradeSide) (intrabar_policy : IntrabarPolicy)
    (slippage_mode : SlippageMode) (rules : ExchangeRules) : Except Err ℚ :=
  let base_price :=
    match intrabar_policy with
    | IntrabarPolicy.exactTrades => bar.close
    | IntrabarPolicy.oneSecondBars => bar.open_
    | IntrabarPolicy.linearInterpolation => bar.open_
  apply_slippage base_price side slippage_mode rules

/-- Taker fee on the notional, quantized to the price precision
(trade_table.rs, calculate_fee).  The source computes the precision
factor as 10_u64.pow(precision_price as u32), which in release builds
wraps modulo 2^64 — modelled here by the explicit % 2^64 — and is
therefore exactly zero for precision_price ≥ 64 (since 10^64 is a
multiple of 2^64), making the final Decimal division panic; under debug
assertions the power itself already panics with an overflow for
precision_price ≥ 20, so the totality lemmas below assume
precision_price < 20, the region where both profiles agree and the
factor is the exact power of ten. -/
def calculate_fee (quantity price : ℚ) (rules : ExchangeRules) : Except Err ℚ := do
  let notional := quantity * price
  let fee := notional * rules.taker_fee
  let precision : ℚ := ((10 ^ rules.precision_price % 2 ^ 64 : Nat) : ℚ)
  qdiv ((roundBankers (fee * precision) : ℚ)) precision

/-- Body of the per-signal entry loop of process_entry_signals in
trade_table.rs: skip symbols holding a position, size from the default
notional, quantize, filter on min notional, price, fee, open. -/
def entry_signal_step (bar : Bar) (intrabar_policy : IntrabarPolicy)
    (slippage_mode : SlippageMode) (rules : ExchangeRules)
    (self : TradeTableGenerator) (signal : StrategySignal) :
    Except Err TradeTableGenerator :=
  if (self.active_positions.lookup signal.symbol).isSome then pure self
  else do
    let notional := self.default_size_usd
    let raw_quantity ← qdiv notional bar.close
    let quantity ← apply_symbol_filters raw_quantity rules
    let final_notional := quantity * bar.close
    if final_notional < rules.min_notional then
      pure { self with
        rejected_trades := self.rejected_trades ++
          [{ timestamp := bar.timestamp
             symbol := signal.symbol
             side := signal.side
             reason := "Rejected – NotionalMin"
             notional := final_notional }] }
    else do
      let entry_price ← calculate_entry_price bar signal.side intrabar_policy slippage_mode rules
      let entry_fee ← calculate_fee quantity entry_price rules
      let trade_type :=
        match signal.side with
        | TradeSide.buy => TradeType.long
        | TradeSide.sell => TradeType.short
      let position : ActivePosition :=
        { symbol := signal.symbol
          trade_type := trade_type
          entry_time := bar.timestamp
          entry_price := entry_price
          quantity := quantity
          take_profit := signal.take_profit
          stop_loss := signal.stop_loss
          time_to_live := signal.time_to_live
          entry_fee := entry_fee
          size_usd := self.default_size_usd }
      pure { self with active_positions := (signal.symbol, position) :: self.active_positions }

/-- Process entry signals (trade_table.rs, process_entry_signals). -/
def process_entry_signals (bar : Bar) (signals : List StrategySignal)
    (intrabar_policy : IntrabarPolicy) (slippage_mode : SlippageMode)
    (rules : ExchangeRules) (self : TradeTableGenerator) :
    Except Err TradeTableGenerator :=
  signals.foldlM (entry_signal_step bar intrabar_policy slippage_mode rules) self

/-- Exit-candidate scan of trade_table.rs check_exit_conditions: push a
take-profit candidate, then a stop-loss candidate, then a timeout
candidate, and return the FIRST pushed candidate.  The source does not
consult the intrabar policy here. -/
def check_exit_conditions (bar : Bar) (position : ActivePosition) : Option ExitInfo :=
  let tp_candidates : List ExitInfo :=
    match position.take_profit with
    | some tp =>
      let hit_tp : Bool :=
        match position.trade_type with
        | TradeType.long => decide (bar.high ≥ tp)
        | TradeType.short => decide (bar.low ≤ tp)
      if hit_tp then
        [{ exit_price := tp, exit_time := bar.timestamp
           exit_reason := ExitReason.takeProfit, hit_tp_sl := HitTpSl.takeProfit }]
      else []
    | none => []
  let sl_candidates : List ExitInfo :=
    match position.stop_loss with
    | some sl =>
      let hit_sl : Bool :=
        match position.trade_type with
        | TradeType.long => decide (bar.low ≤ sl)
        | TradeType.short => decide (bar.high ≥ sl)
      if hit_sl then
        [{ exit_price := sl, exit_time := bar.timestamp
           exit_reason := ExitReason.stopLoss, hit_tp_sl := HitTpSl.stopLoss }]
      else []
    | none => []
  let timeout_candidates : List ExitInfo :=
    match position.time_to_live with
    | some ttl =>
      if bar.timestamp ≥ position.entry_time + ttl then
        [{ exit_price := bar.close, exit_time := bar.timestamp
           exit_reason := ExitReason.timeout, hit_tp_sl := HitTpSl.none }]
      else []
    | none => []
  (tp_candidates ++ sl_candidates ++ timeout_candidates).head?

/-- Close a position into a trade record (trade_table.rs,
create_trade_record).  The bar and slippage mode parameters are unused in
the source as well. -/
def create_trade_record (self : TradeTableGenerator) (position : ActivePosition)
    (exit_info : ExitInfo) (bar : Bar) (slippage_mode : SlippageMode)
    (rules : ExchangeRules) : Except Err TradeTableGenerator := do
  let exit_fee ← calculate_fee position.quantity exit_info.exit_price rules
  let total_fees := position.entry_fee + exit_fee
  let pnl_usd :=
    match position.trade_type with
    | TradeType.long => (exit_info.exit_price - position.entry_price) * position.quantity - total_fees
    | TradeType.short => (position.entry_price - exit_info.exit_price) * position.quantity - total_fees
  let pnl_pct ← qdiv pnl_usd position.size_usd
  let entry_time_utc := timestamp_to_iso_utc position.entry_time
  let exit_time_utc := timestamp_to_iso_utc exit_info.exit_time
  let date := String.mk (exit_time_utc.data.takeWhile (fun c => !(c == 'T')))
  -- the prefix of the ISO string before the first T: the source takes the
  -- first segment of split, falling back to the whole string
  let record : TradeRecord :=
    { date := date
      trade_type := position.trade_type
      entry_price := position.entry_price
      entry_time_utc := entry_time_utc
      exit_price := exit_info.exit_price
      exit_time_utc := exit_time_utc
      exit_reason := exit_info.exit_reason
      hit_tp_sl := exit_info.hit_tp_sl
      size_usd := position.size_usd
      qty := position.quantity
      fees_usd := total_fees
      pnl_usd := pnl_usd
      pnl_pct := pnl_pct
      symbol := position.symbol }
  pure { self with trade_records := self.trade_records ++ [record] }

/-- Close one collected exit: remove the position from the map and record
the trade (the per-element body of the closing loop in process_exits). -/
def exit_step (bar : Bar) (slippage_mode : SlippageMode) (rules : ExchangeRules)
    (self : TradeTableGenerator) (pair : String × ExitInfo) :
    Except Err TradeTableGenerator :=
  match self.active_positions.lookup pair.1 with
  | some position =>
    create_trade_record
      { self with active_positions := self.active_positions.eraseP (fun kv => kv.1 == pair.1) }
      position pair.2 bar slippage_mode rules
  | none => pure self

/-- Process exits for open positions (trade_table.rs, process_exits).
The intrabar policy parameter is carried but, as in the source, unused. -/
def process_exits (bar : Bar) (intrabar_policy : IntrabarPolicy)
    (slippage_mode : SlippageMode) (rules : ExchangeRules)
    (self : TradeTableGenerator) : Except Err TradeTableGenerator :=
  let positions_to_close :=
    self.active_positions.filterMap
      (fun kv => (check_exit_conditions bar kv.2).map (fun e => (kv.1, e)))
  positions_to_close.foldlM (exit_step bar slippage_mode rules) self

/-- Equity, peak equity and max drawdown update (trade_table.rs,
update_equity_and_drawdown).  The starting equity 10000 is hard-coded in
the source. -/
def update_equity_and_drawdown (self : TradeTableGenerator) :
    Except Err TradeTableGenerator := do
  let realized_pnl := (self.trade_records.map TradeRecord.pnl_usd).sum
  let current_equity := (10000 : ℚ) + realized_pnl
  let peak_equity :=
    if current_equity > self.peak_equity then current_equity else self.peak_equity
  let current_drawdown ← qdiv (peak_equity - current_equity) peak_equity
  let max_drawdown :=
    if current_drawdown > self.max_drawdown then current_drawdown else self.max_drawdown
  pure { self with
    current_equity := current_equity
    peak_equity := peak_equity
    max_drawdown := max_drawdown }

/-- Per-bar pipeline (trade_table.rs, process_bar): entries, then exits,
then the equity and drawdown update. -/
def process_bar (bar : Bar) (signals : List StrategySignal)
    (intrabar_policy : IntrabarPolicy) (slippage_mode : SlippageMode)
    (rules : ExchangeRules) (self : TradeTableGenerator) :
    Except Err TradeTableGenerator := do
  let s1 ← process_entry_signals bar signals intrabar_policy slippage_mode rules self
  let s2 ← process_exits bar intrabar_policy slippage_mode rules s1
  update_equity_and_drawdown s2

/-- Run the generator from a fresh state over a sequence of bars, each
paired with the signals arriving on it. -/
def process_run (input : List (Bar × List StrategySignal))
    (intrabar_policy : IntrabarPolicy) (slippage_mode : SlippageMode)
    (rules : ExchangeRules) : Except Err TradeTableGenerator :=
  input.foldlM
    (fun s bs => process_bar bs.1 bs.2 intrabar_policy slippage_mode rules s)
    TradeTableGenerator.new

/-- Aggregate statistics over the recorded trades (trade_table.rs,
calculate_summary).  Every division in the source is guarded by a
positivity test on its denominator, so plain ℚ division is exact here.
The holding time is computed, as in the source, from
iso_utc_to_timestamp applied to the stored ISO strings, hence from their
string LENGTHS; the u64 subtraction is modelled by truncated ℕ
subtraction (for representable timestamps both strings have length 24,
so the difference the source computes is 0 and never underflows). -/
def calculate_summary (self : TradeTableGenerator) : TradeSummary :=
  let total_trades := self.trade_records.length
  if total_trades = 0 then
    { total_trades := 0
      wins := 0
      losses := 0
      win_rate := 0
      net_pnl_usd := 0
      avg_win_usd := 0
      avg_loss_usd := 0
      expectancy := 0
      max_drawdown := self.max_drawdown
      profit_factor := 0
      avg_holding_time_hours := 0 }
  else
    let wins := (self.trade_records.filter (fun t => decide (t.pnl_usd > 0))).length
    let losses := total_trades - wins
    let win_rate : ℚ :=
      if total_trades > 0 then (wins : ℚ) / (total_trades : ℚ) * 100 else 0
    let net_pnl_usd := (self.trade_records.map TradeRecord.pnl_usd).sum
    let winning_trades := self.trade_records.filter (fun t => decide (t.pnl_usd > 0))
    let losing_trades := self.trade_records.filter (fun t => decide (t.pnl_usd ≤ 0))
    let avg_win_usd : ℚ :=
      if wins > 0 then (winning_trades.map TradeRecord.pnl_usd).sum / (wins : ℚ) else 0
    let avg_loss_usd : ℚ :=
      if losses > 0 then (losing_trades.map TradeRecord.pnl_usd).sum / (losses : ℚ) else 0
    let expectancy :=
      (win_rate / 100) * avg_win_usd + (1 - win_rate / 100) * avg_loss_usd
    let gross_profit := (winning_trades.map TradeRecord.pnl_usd).sum
    let gross_loss := (losing_trades.map (fun t => |t.pnl_usd|)).sum
    let profit_factor : ℚ := if gross_loss > 0 then gross_profit / gross_loss else 0
    let total_holding_time_ms : Nat :=
      (self.trade_records.map
        (fun t => iso_utc_to_timestamp t.exit_time_utc - iso_utc_to_timestamp t.entry_time_utc)).sum
    let avg_holding_time_hours : ℚ :=
      if total_trades > 0 then
        (total_holding_time_ms : ℚ) / (total_trades : ℚ) / 3600000
      else 0
    { total_trades := total_trades
      wins := wins
      losses := losses
      win_rate := win_rate
      net_pnl_usd := net_pnl_usd
      avg_win_usd := avg_win_usd
      avg_loss_usd := avg_loss_usd
      expectancy := expectancy
      max_drawdown := self.max_drawdown
      profit_factor := profit_factor
      avg_holding_time_hours := avg_holding_time_hours }

/-- Timestamped indicator value (types.rs, struct IndicatorValue). -/
structure IndicatorValue where
  timestamp : Nat
  value : ℚ
deriving DecidableEq, Repr

/-- Indicator calculation parameters (types.rs, IndicatorParams). -/
structure IndicatorParams where
  period : Nat
  alpha : Option ℚ
  threshold : Option ℚ
deriving DecidableEq, Repr

/-- Trade tape entry (types.rs, struct Trade). -/
structure Trade where
  timestamp : Nat
  price : ℚ
  quantity : ℚ
  side : TradeSide
  trade_id : String
deriving DecidableEq, Repr

/-- Market data record (types.rs, struct MarketData). -/
structure MarketData where
  symbol : String
  timeframe : String
  bars : List Bar
  trades : List Trade
  rules : ExchangeRules
deriving DecidableEq, Repr

/-- Exponential moving average (indicators.rs, calculate_ema): seeded by
the simple average of the first `period` closes, then the recurrence
with alpha defaulting to 2 / (period + 1). -/
def calculate_ema (bars : List Bar) (params : IndicatorParams) : List IndicatorValue :=
  let period := params.period
  let alpha := params.alpha.getD (2 / ((period : ℚ) + 1))
  if bars.length < period then []
  else
    let ema0 := ((bars.take period).map Bar.close).sum / (period : ℚ)
    let ts0 := ((bars.get? (period - 1)).map Bar.timestamp).getD 0
    ((bars.drop period).foldl
      (fun acc b =>
        let e := alpha * b.close + (1 - alpha) * acc.2
        (acc.1 ++ [{ timestamp := b.timestamp, value := e }], e))
      ([{ timestamp := ts0, value := ema0 }], ema0)).1

/-- Simple moving average, scalar path (indicators.rs, calculate_sma
without the SIMD branch; the floating-point SIMD branch is contracted to
be bit-identical to this path and lies outside the decimal model). -/
def calculate_sma (bars : List Bar) (params : IndicatorParams) : List IndicatorValue :=
  let period := params.period
  if bars.length < period then []
  else
    (List.range (bars.length - period + 1)).map
      (fun i =>
        { timestamp := (((bars.drop (i + period - 1)).head?).map Bar.timestamp).getD 0
          value := (((bars.drop i).take period).map Bar.close).sum / (period : ℚ) })

/-- Per-bar close changes split into gains and losses (the first loop of
calculate_rsi in indicators.rs): index j holds the change from bar j to
bar j + 1. -/
def rsi_gains_losses (bars : List Bar) : List (ℚ × ℚ) :=
  (bars.zip bars.tail).map
    (fun p =>
      let change := p.2.close - p.1.close
      if change > 0 then (change, 0) else (0, -change))

/-- Relative strength index (indicators.rs, calculate_rsi): Wilder
smoothing of gains and losses; when the smoothed average loss is zero
the source sets rs itself to 100 before applying
rsi = 100 - 100 / (1 + rs). -/
def calculate_rsi (bars : List Bar) (params : IndicatorParams) : List IndicatorValue :=
  let period := params.period
  if bars.length < period + 1 then []
  else
    let gl := rsi_gains_losses bars
    let avg_gain0 := ((gl.take period).map Prod.fst).sum / (period : ℚ)
    let avg_loss0 := ((gl.take period).map Prod.snd).sum / (period : ℚ)
    (((gl.drop period).zip (bars.drop (period + 1))).foldl
      (fun acc x =>
        let avg_gain := (acc.2.1 * ((period : ℚ) - 1) + x.1.1) / (period : ℚ)
        let avg_loss := (acc.2.2 * ((period : ℚ) - 1) + x.1.2) / (period : ℚ)
        let rs := if avg_loss = 0 then (100 : ℚ) else avg_gain / avg_loss
        let rsi := 100 - (100 / (1 + rs))
        (acc.1 ++ [{ timestamp := x.2.timestamp, value := rsi }], (avg_gain, avg_loss)))
      (([] : List IndicatorValue), (avg_gain0, avg_loss0))).1

/-- Wilder-smoothed average losses at each RSI output position, the
avg_loss sequence the loop of calculate_rsi steps through; used to state
where the smoothed average loss is zero. -/
def calculate_rsi_avg_losses (bars : List Bar) (params : IndicatorParams) : List ℚ :=
  let period := params.period
  if bars.length < period + 1 then []
  else
    let gl := rsi_gains_losses bars
    let avg_loss0 := ((gl.take period).map Prod.snd).sum / (period : ℚ)
    (((gl.drop period).zip (bars.drop (period + 1))).foldl
      (fun acc x =>
        let avg_loss := (acc.2 * ((period : ℚ) - 1) + x.1.2) / (period : ℚ)
        (acc.1 ++ [avg_loss], avg_loss))
      (([] : List ℚ), avg_loss0)).1

/-- True ranges of consecutive bars (first loop of calculate_atr). -/
def true_ranges (bars : List Bar) : List ℚ :=
  (bars.zip bars.tail).map
    (fun p =>
      let hl := p.2.high - p.2.low
      let hc := |p.2.high - p.1.close|
      let lc := |p.2.low - p.1.close|
      max (max hl hc) lc)

/-- Average true range (indicators.rs, calculate_atr): Wilder smoothing
over the true ranges. -/
def calculate_atr (bars : List Bar) (params : IndicatorParams) : List IndicatorValue :=
  let period := params.period
  if bars.length < period + 1 then []
  else
    let trs := true_ranges bars
    let atr0 := (trs.take period).sum / (period : ℚ)
    let ts0 := (((bars.drop period).head?).map Bar.timestamp).getD 0
    (((trs.drop period).zip (bars.drop (period + 1))).foldl
      (fun acc x =>
        let atr := (acc.2 * ((period : ℚ) - 1) + x.1) / (period : ℚ)
        (acc.1 ++ [{ timestamp := x.2.timestamp, value := atr }], atr))
      ([{ timestamp := ts0, value := atr0 }], atr0)).1

/-- Volume weighted average price (indicators.rs, calculate_vwap):
cumulative typical-price volume over cumulative volume, zero until any
volume has accumulated. -/
def calculate_vwap (bars : List Bar) (params : IndicatorParams) : List IndicatorValue :=
  (bars.foldl
    (fun acc bar =>
      let typical_price := (bar.high + bar.low + bar.close) / 3
      let cvp := acc.2.1 + typical_price * bar.volume
      let cv := acc.2.2 + bar.volume
      let vwap := if cv > 0 then cvp / cv else 0
      (acc.1 ++ [{ timestamp := bar.timestamp, value := vwap }], (cvp, cv)))
    (([] : List IndicatorValue), ((0 : ℚ), (0 : ℚ)))).1

/-- Rolling highest high (indicators.rs, calculate_highest_high); the
source unwraps an empty window maximum to zero. -/
def calculate_highest_high (bars : List Bar) (params : IndicatorParams) : List IndicatorValue :=
  let period := params.period
  if bars.length < period then []
  else
    (List.range (bars.length - period + 1)).map
      (fun i =>
        { timestamp := (((bars.drop (i + period - 1)).head?).map Bar.timestamp).getD 0
          value := ((((bars.drop i).take period).map Bar.high).max?).getD 0 })

/-- Rolling lowest low (indicators.rs, calculate_lowest_low). -/
def calculate_lowest_low (bars : List Bar) (params : IndicatorParams) : List IndicatorValue :=
  let period := params.period
  if bars.length < period then []
  else
    (List.range (bars.length - period + 1)).map
      (fun i =>
        { timestamp := (((bars.drop (i + period - 1)).head?).map Bar.timestamp).getD 0
          value := ((((bars.drop i).take period).map Bar.low).min?).getD 0 })

/-- Dispatch of IndicatorRegistry::calculate on the indicator name with
the fixed parameters the registry passes; none for an unknown name.
This is also the cache-free fresh computation of an indicator. -/
def compute_indicator (indicator_name : String) (bars : List Bar) :
    Option (List IndicatorValue) :=
  if indicator_name = "ema" then
    some (calculate_ema bars { period := 20, alpha := none, threshold := none })
  else if indicator_name = "sma" then
    some (calculate_sma bars { period := 20, alpha := none, threshold := none })
  else if indicator_name = "rsi" then
    some (calculate_rsi bars { period := 14, alpha := none, threshold := none })
  else if indicator_name = "atr" then
    some (calculate_atr bars { period := 14, alpha := none, threshold := none })
  else if indicator_name = "vwap" then
    some (calculate_vwap bars { period := 0, alpha := none, threshold := none })
  else if indicator_name = "hh" then
    some (calculate_highest_high bars { period := 20, alpha := none, threshold := none })
  else if indicator_name = "ll" then
    some (calculate_lowest_low bars { period := 20, alpha := none, threshold := none })
  else none

/-- Names the registry dispatch recognizes. -/
def supported_indicators : List String :=
  ["ema", "sma", "rsi", "atr", "vwap", "hh", "ll"]

/-- Indicator registry state (indicators.rs, IndicatorRegistry): the
cache maps a name underscore symbol key to computed values.  The scalar
indicator semantics is embedded; the enable_simd flag only switches the
SMA floating-point fast path, contracted to match the scalar path. -/
structure IndicatorRegistry where
  cache : List (String × List IndicatorValue)
deriving DecidableEq, Repr

/-- Fresh registry (IndicatorRegistry::new). -/
def IndicatorRegistry.new : IndicatorRegistry := { cache := [] }

/-- Cached indicator computation (indicators.rs,
IndicatorRegistry::calculate): serve from the cache when the key is
present; short-circuit empty bars to an empty result without caching;
otherwise dispatch on the name, cache and return, or fail with the
unknown-indicator error. -/
def IndicatorRegistry.calculate (self : IndicatorRegistry)
    (indicator_name : String) (market_data : MarketData) :
    Except Err (List IndicatorValue × IndicatorRegistry) :=
  let cache_key := indicator_name ++ "_" ++ market_data.symbol
  match self.cache.lookup cache_key with
  | some cached => Except.ok (cached, self)
  | none =>
    if market_data.bars.isEmpty then Except.ok ([], self)
    else
      match compute_indicator indicator_name market_data.bars with
      | some values => Except.ok (values, { cache := (cache_key, values) :: self.cache })
      | none => Except.error (Err.unknownIndicator indicator_name)

/-- Flat bar at the epoch used by several concrete runs. -/
def demo_bar_flat : Bar :=
  { timestamp := 0, open_ := 100, high := 100, low := 100, close := 100
    volume := 1, trade_count := 1 }

/-- Flat bar one hour after the epoch. -/
def demo_bar_hour : Bar :=
  { timestamp := 3600000, open_ := 100, high := 100, low := 100, close := 100
    volume := 1, trade_count := 1 }

/-- Buy signal with a one-hour time to live and no bracket levels. -/
def demo_signal_ttl : StrategySignal :=
  { symbol := "BTC", side := TradeSide.buy, size := 1000, entry_price := none
    take_profit := none, stop_loss := none, time_to_live := some 3600000 }

/-- Simple unit-tick exchange rules with zero fees for concrete runs. -/
def demo_rules : ExchangeRules :=
  { tick_size := 1, lot_size := 1, min_notional := 1, maker_fee := 0
    taker_fee := 0, precision_price := 0, precision_quantity := 0 }

/-- Long position holding both bracket levels: take profit 51000 and
stop loss 49000, entered at 49100. -/
def straddle_position : ActivePosition :=
  { symbol := "BTC", trade_type := TradeType.long, entry_time := 0
    entry_price := 49100, quantity := 1, take_profit := some 51000
    stop_loss := some 49000, time_to_live := none, entry_fee := 0
    size_usd := 1000 }

/-- Bar touching both bracket levels of straddle_position, whose open
49100 is strictly closer to the stop loss than to the take profit. -/
def straddle_bar : Bar :=
  { timestamp := 60000, open_ := 49100, high := 51500, low := 48500
    close := 50000, volume := 1, trade_count := 1 }

/-- Generator state holding exactly the straddling long position. -/
def straddle_state : TradeTableGenerator :=
  { TradeTableGenerator.new with active_positions := [("BTC", straddle_position)] }

unseal Rat.mul Rat.inv Rat.add Rat.sub Rat.ofScientific in
/-- C1.  For every open position whose bar touches both its take-profit
and its stop-loss under IntrabarPolicy::LinearInterpolation, if the
bar's open is strictly closer in price distance to the stop-loss than to
the take-profit, the position exits at the stop-loss price with
exit_reason StopLoss (and never defaults to the more favorable exit).
REFUTED ON THE CODE: check_exit_conditions pushes the take-profit
candidate first and process_exits returns the first candidate without
consulting the intrabar policy, so on a bar whose open (49100) is 100
away from the stop loss and 1900 away from the take profit, the long
position exits at the TAKE PROFIT, the more favorable exit the spec
forbids. -/
theorem c1_exit_selection_ignores_policy_bug :
    (straddle_bar.low ≤ 49000 ∧ (49000 : ℚ) ≤ straddle_bar.high ∧
      (51000 : ℚ) ≤ straddle_bar.high ∧
      |straddle_bar.open_ - 49000| < |51000 - straddle_bar.open_|) ∧
    (process_exits straddle_bar IntrabarPolicy.linearInterpolation
        SlippageMode.none demo_rules straddle_state).map
      (fun s => s.trade_records.map (fun t => (t.exit_reason, t.exit_price))) =
      Except.ok [(ExitReason.takeProfit, 51000)] := by
  decide

/-- Run with one trade held exactly one hour: entry on the epoch bar,
timeout exit on the bar one hour later. -/
def one_hour_input : List (Bar × List StrategySignal) :=
  [(demo_bar_flat, [demo_signal_ttl]), (demo_bar_hour, [])]

unseal Rat.mul Rat.inv Rat.add Rat.sub Rat.ofScientific in
/-- C2.  For every non-empty sequence of closed trade records, the
summary's avg_holding_time_hours equals the mean over trades of (exit
Unix-ms timestamp minus entry Unix-ms timestamp) divided by 3600000.
REFUTED ON THE CODE: calculate_summary recovers the timestamps through
iso_utc_to_timestamp, which returns the LENGTH of the stored ISO string;
both strings have length 24, so a trade held exactly one hour
contributes 0 and the reported average is 0 instead of 1. -/
theorem c2_avg_holding_time_is_zero_bug :
    (process_run one_hour_input IntrabarPolicy.linearInterpolation
        SlippageMode.none demo_rules).map
      (fun s => ((calculate_summary s).avg_holding_time_hours,
        s.trade_records.map (fun t => (t.entry_time_utc, t.exit_time_utc)))) =
      Except.ok (0, [("1970-01-01T00:00:00.000Z", "1970-01-01T01:00:00.000Z")]) ∧
    ((3600000 : ℚ) - 0) / 1 / 3600000 = 1 ∧ (0 : ℚ) ≠ 1 := by
  decide

/-- Buy signal whose own size field is 2000 dollars. -/
def size_signal : StrategySignal :=
  { symbol := "BTC", side := TradeSide.buy, size := 2000, entry_price := none
    take_profit := none, stop_loss := none, time_to_live := none }

unseal Rat.mul Rat.inv Rat.add Rat.sub Rat.ofScientific in
/-- C3 counterexample.  The claim says an accepted entry is sized by the
signal's own size when the signal sets one; here the signal carries size
2000, yet the opened position is sized and recorded at the configured
default of 1000 — process_entry_signals never reads the signal's size. -/
theorem c3_size_ignored_counterexample :
    size_signal.size = 2000 ∧
    (process_run [(demo_bar_flat, [size_signal])]
        IntrabarPolicy.linearInterpolation SlippageMode.none demo_rules).map
      (fun s => s.active_positions.map (fun p => (p.2.size_usd, p.2.quantity))) =
      Except.ok [(1000, 10)] ∧ (1000 : ℚ) ≠ 2000 := by
  decide

/-- Four bars with strictly increasing closes 1, 2, 3, 4: every change
is a gain, so every smoothed average loss is zero. -/
def rsi_demo_bars : List Bar :=
  [{ timestamp := 0, open_ := 1, high := 1, low := 1, close := 1, volume := 1, trade_count := 1 },
   { timestamp := 1, open_ := 2, high := 2, low := 2, close := 2, volume := 1, trade_count := 1 },
   { timestamp := 2, open_ := 3, high := 3, low := 3, close := 3, volume := 1, trade_count := 1 },
   { timestamp := 3, open_ := 4, high := 4, low := 4, close := 4, volume := 1, trade_count := 1 }]

unseal Rat.mul Rat.inv Rat.add Rat.sub Rat.ofScientific in
/-- C4.  At every RSI output position where the Wilder-smoothed average
loss is zero the reported value should be exactly 100.  REFUTED ON THE
CODE: calculate_rsi substitutes rs = 100 when avg_loss = 0 and still
applies rsi = 100 - 100 / (1 + rs), reporting 100 - 100/101 = 10000/101
(about 99.0099) instead of 100. -/
theorem c4_rsi_zero_loss_not_100_bug :
    calculate_rsi_avg_losses rsi_demo_bars
      { period := 2, alpha := none, threshold := none } = [0] ∧
    (calculate_rsi rsi_demo_bars
      { period := 2, alpha := none, threshold := none }).map IndicatorValue.value =
      [10000/101] ∧ (10000/101 : ℚ) ≠ 100 := by
  decide

/-- Flat bar at price 50000. -/
def reject_bar : Bar :=
  { timestamp := 0, open_ := 50000, high := 50000, low := 50000, close := 50000
    volume := 1, trade_count := 1 }

/-- Default exchange rules with the minimum notional raised to 2000. -/
def reject_rules : ExchangeRules :=
  { ExchangeRules.default with min_notional := 2000 }

unseal Rat.mul Rat.inv Rat.add Rat.sub Rat.ofScientific in
/-- C5 counterexample.  With min_notional 2000 and a 1000-dollar entry
at price 50000 the quantized notional is below the minimum, yet the
record appended carries the reason string of the source,
Rejected – NotionalMin, and never the bare string NotionalMin the claim
names. -/
theorem c5_reason_string_counterexample :
    ((roundBankers (1000 / reject_bar.close / reject_rules.lot_size) : ℚ) *
        reject_rules.lot_size * reject_bar.close < reject_rules.min_notional) ∧
    (process_run [(reject_bar, [demo_signal_ttl])]
        IntrabarPolicy.linearInterpolation SlippageMode.none reject_rules).map
      (fun s => (s.rejected_trades.map RejectedTrade.reason,
        s.trade_records.length, s.active_positions.length)) =
      Except.ok (["Rejected – NotionalMin"], 0, 0) ∧
    "Rejected – NotionalMin" ≠ "NotionalMin" := by
  decide

/-- Bar that opens high and closes near zero, and a buy signal with an
immediate timeout: the position opens at 30000 and is closed at 1 on the
same bar, realizing a loss far beyond the starting equity. -/
def loss_bar : Bar :=
  { timestamp := 0, open_ := 30000, high := 30000, low := 1, close := 1
    volume := 1, trade_count := 1 }

/-- Buy signal with an immediate (zero millisecond) time to live. -/
def loss_signal : StrategySignal :=
  { symbol := "BTC", side := TradeSide.buy, size := 1000, entry_price := none
    take_profit := none, stop_loss := none, time_to_live := some 0 }

unseal Rat.mul Rat.inv Rat.add Rat.sub Rat.ofScientific in
/-- C7 counterexample.  After one bar realizing a 29999000-dollar loss
the generator's max_drawdown is 2999.9, far above the upper bound 1 the
claim states. -/
theorem c7_drawdown_exceeds_one_counterexample :
    (process_run [(loss_bar, [loss_signal])]
        IntrabarPolicy.linearInterpolation SlippageMode.none demo_rules).map
      TradeTableGenerator.max_drawdown = Except.ok (29999/10) ∧
    (1 : ℚ) < 29999/10 := by
  decide

/-- Market data with no bars. -/
def md_empty : MarketData :=
  { symbol := "X", timeframe := "1m", bars := [], trades := []
    rules := ExchangeRules.default }

unseal Rat.mul Rat.inv Rat.add Rat.sub Rat.ofScientific in
/-- C9 counterexample.  The name macd is outside the supported set, yet
on empty bars calculate returns an empty sequence without error: the
empty-bars short circuit precedes the name dispatch. -/
theorem c9_empty_bars_counterexample :
    ("macd" ∉ supported_indicators) ∧ md_empty.bars = [] ∧
    IndicatorRegistry.new.calculate ("macd") md_empty =
      Except.ok ([], IndicatorRegistry.new) := by
  decide

@[simp]
lemma except_bind_ok {ε α β : Type} (a : α) (f : α → Except ε β) :
    (Except.ok a : Except ε α) >>= f = f a := rfl

@[simp]
lemma except_bind_error {ε α β : Type} (e : ε) (f : α → Except ε β) :
    (Except.error e : Except ε α) >>= f = Except.error e := rfl

@[simp]
lemma except_pure_eq_ok {ε α : Type} (a : α) :
    (pure a : Except ε α) = Except.ok a := rfl

lemma lookup_none_not_mem {β : Type} {l : List (String × β)} {k : String}
    (h : l.lookup k = none) : k ∉ l.map Prod.fst := by
  induction l with
  | nil => simp
  | cons x xs ih =>
    rw [List.lookup] at h
    by_cases hk : k = x.1
    · simp [hk, beq_self_eq_true] at h
    · simp only [List.map_cons, List.mem_cons]
      intro hmem
      rcases hmem with h1 | h2
      · exact hk h1
      · have hne : (k == x.1) = false := beq_eq_false_iff_ne.mpr hk
        rw [hne] at h
        exact ih h h2

/-- Effect of one entry-signal iteration: bookkeeping fields other than
the rejection list and the position map are untouched, and the position
map either stays as it was or gains the signal's symbol (only when it
was absent) with a position sized by the default notional. -/
lemma entry_signal_step_spec {bar : Bar} {pol : IntrabarPolicy} {mode : SlippageMode}
    {rules : ExchangeRules} {s : TradeTableGenerator} {sig : StrategySignal}
    {s' : TradeTableGenerator}
    (h : entry_signal_step bar pol mode rules s sig = Except.ok s') :
    s'.default_size_usd = s.default_size_usd ∧
    s'.trade_records = s.trade_records ∧
    s'.current_equity = s.current_equity ∧
    s'.peak_equity = s.peak_equity ∧
    s'.max_drawdown = s.max_drawdown ∧
    (s'.active_positions = s.active_positions ∨
      ∃ pos, s.active_positions.lookup sig.symbol = none ∧
        pos.size_usd = s.default_size_usd ∧
        s'.active_positions = (sig.symbol, pos) :: s.active_positions) := by
  unfold entry_signal_step at h
  split at h
  · cases h
    exact ⟨rfl, rfl, rfl, rfl, rfl, Or.inl rfl⟩
  · rename_i hl
    have hnone : s.active_positions.lookup sig.symbol = none :=
      Option.not_isSome_iff_eq_none.mp hl
    cases hq : qdiv s.default_size_usd bar.close with
    | error e => simp [hq] at h
    | ok raw =>
      simp only [hq, except_bind_ok] at h
      cases hf : apply_symbol_filters raw rules with
      | error e => simp [hf] at h
      | ok quantity =>
        simp only [hf, except_bind_ok] at h
        split at h
        · simp only [except_pure_eq_ok, Except.ok.injEq] at h
          subst h
          exact ⟨rfl, rfl, rfl, rfl, rfl, Or.inl rfl⟩
        · cases hp : calculate_entry_price bar sig.side pol mode rules with
          | error e => simp [hp] at h
          | ok entry_price =>
            simp only [hp, except_bind_ok] at h
            cases hfee : calculate_fee quantity entry_price rules with
            | error e => simp [hfee] at h
            | ok entry_fee =>
              simp only [hfee, except_bind_ok, except_pure_eq_ok, Except.ok.injEq] at h
              subst h
              exact ⟨rfl, rfl, rfl, rfl, rfl, Or.inr ⟨_, hnone, rfl, rfl⟩⟩

lemma lookup_some_mem {β : Type} {l : List (String × β)} {k : String} {v : β}
    (h : l.lookup k = some v) : (k, v) ∈ l := by
  induction l with
  | nil => simp [List.lookup] at h
  | cons x xs ih =>
    obtain ⟨a, b⟩ := x
    rw [List.lookup] at h
    by_cases hk : k = a
    · have hb : (k == a) = true := beq_iff_eq.mpr hk
      rw [hb] at h
      simp only [Option.some.injEq] at h
      subst hk
      subst h
      exact List.mem_cons_self _ _
    · have hb : (k == a) = false := beq_eq_false_iff_ne.mpr hk
      rw [hb] at h
      exact List.mem_cons_of_mem _ (ih h)

/-- One entry-signal iteration keeps the position keys duplicate-free. -/
lemma entry_signal_step_nodup {bar : Bar} {pol : IntrabarPolicy} {mode : SlippageMode}
    {rules : ExchangeRules} {s s' : TradeTableGenerator} {sig : StrategySignal}
    (h : entry_signal_step bar pol mode rules s sig = Except.ok s')
    (hnd : (s.active_positions.map Prod.fst).Nodup) :
    (s'.active_positions.map Prod.fst).Nodup := by
  obtain ⟨-, -, -, -, -, hact⟩ := entry_signal_step_spec h
  rcases hact with heq | ⟨pos, hnone, -, heq⟩
  · rw [heq]; exact hnd
  · rw [heq]
    simp only [List.map_cons, List.nodup_cons]
    exact ⟨lookup_none_not_mem hnone, hnd⟩

/-- Effect of the whole entry loop: records and equity fields untouched;
every position is an old one or is sized by the default notional; keys
stay duplicate-free. -/
lemma process_entry_signals_spec {bar : Bar} {pol : IntrabarPolicy} {mode : SlippageMode}
    {rules : ExchangeRules} {sigs : List StrategySignal} :
    ∀ {s s' : TradeTableGenerator},
      process_entry_signals bar sigs pol mode rules s = Except.ok s' →
      s'.default_size_usd = s.default_size_usd ∧
      s'.trade_records = s.trade_records ∧
      s'.current_equity = s.current_equity ∧
      s'.peak_equity = s.peak_equity ∧
      s'.max_drawdown = s.max_drawdown ∧
      (∀ p ∈ s'.active_positions, p ∈ s.active_positions ∨ p.2.size_usd = s.default_size_usd) ∧
      ((s.active_positions.map Prod.fst).Nodup → (s'.active_positions.map Prod.fst).Nodup) := by
  induction sigs with
  | nil =>
    intro s s' h
    simp only [process_entry_signals, List.foldlM, except_pure_eq_ok, Except.ok.injEq] at h
    subst h
    exact ⟨rfl, rfl, rfl, rfl, rfl, fun p hp => Or.inl hp, id⟩
  | cons sig sigs ih =>
    intro s s' h
    simp only [process_entry_signals, List.foldlM] at h
    cases hstep : entry_signal_step bar pol mode rules s sig with
    | error e => rw [hstep] at h; simp at h
    | ok s1 =>
      rw [hstep] at h
      simp only [except_bind_ok] at h
      have hrest := ih (by simpa [process_entry_signals] using h)
      obtain ⟨hd1, ht1, hc1, hp1, hm1, ha1⟩ := entry_signal_step_spec hstep
      obtain ⟨hd2, ht2, hc2, hp2, hm2, ha2, hn2⟩ := hrest
      refine ⟨hd2.trans hd1, ht2.trans ht1, hc2.trans hc1, hp2.trans hp1, hm2.trans hm1,
        ?_, ?_⟩
      · intro p hp
        rcases ha2 p hp with hp1' | hsz
        · rcases ha1 with heq | ⟨pos, hnone, hposz, heq⟩
          · rw [heq] at hp1'
            exact Or.inl hp1'
          · rw [heq] at hp1'
            rcases List.mem_cons.mp hp1' with hpe | hpo
            · right
              rw [hpe]
              exact hposz
            · exact Or.inl hpo
        · right
          rw [hsz, hd1]
      · intro hnd
        exact hn2 (entry_signal_step_nodup hstep hnd)

/-- Effect of create_trade_record: it only appends a record, sized by
the closed position's size_usd. -/
lemma create_trade_record_spec {s : TradeTableGenerator} {pos : ActivePosition}
    {e : ExitInfo} {bar : Bar} {mode : SlippageMode} {rules : ExchangeRules}
    {s' : TradeTableGenerator}
    (h : create_trade_record s pos e bar mode rules = Except.ok s') :
    s'.default_size_usd = s.default_size_usd ∧
    s'.active_positions = s.active_positions ∧
    s'.rejected_trades = s.rejected_trades ∧
    s'.current_equity = s.current_equity ∧
    s'.peak_equity = s.peak_equity ∧
    s'.max_drawdown = s.max_drawdown ∧
    ∃ rec, rec.size_usd = pos.size_usd ∧ s'.trade_records = s.trade_records ++ [rec] := by
  unfold create_trade_record at h
  cases hfee : calculate_fee pos.quantity e.exit_price rules with
  | error er => simp [hfee] at h
  | ok exit_fee =>
    simp only [hfee, except_bind_ok] at h
    cases hq : qdiv (match pos.trade_type with
      | TradeType.long => (e.exit_price - pos.entry_price) * pos.quantity - (pos.entry_fee + exit_fee)
      | TradeType.short => (pos.entry_price - e.exit_price) * pos.quantity - (pos.entry_fee + exit_fee))
      pos.size_usd with
    | error er => simp [hq] at h
    | ok pnl_pct =>
      simp only [hq, except_bind_ok, except_pure_eq_ok, Except.ok.injEq] at h
      subst h
      exact ⟨rfl, rfl, rfl, rfl, rfl, rfl, ⟨_, rfl, rfl⟩⟩

/-- Effect of one closing iteration of process_exits: positions can only
be removed, and any new record is sized by a position of the map. -/
lemma exit_step_spec {bar : Bar} {mode : SlippageMode} {rules : ExchangeRules}
    {s s' : TradeTableGenerator} {pr : String × ExitInfo}
    (h : exit_step bar mode rules s pr = Except.ok s') :
    s'.default_size_usd = s.default_size_usd ∧
    s'.rejected_trades = s.rejected_trades ∧
    s'.current_equity = s.current_equity ∧
    s'.peak_equity = s.peak_equity ∧
    s'.max_drawdown = s.max_drawdown ∧
    List.Sublist s'.active_positions s.active_positions ∧
    (∀ t ∈ s'.trade_records,
      t ∈ s.trade_records ∨ ∃ p ∈ s.active_positions, t.size_usd = p.2.size_usd) := by
  unfold exit_step at h
  cases hl : s.active_positions.lookup pr.1 with
  | none =>
    rw [hl] at h
    simp only [except_pure_eq_ok, Except.ok.injEq] at h
    subst h
    exact ⟨rfl, rfl, rfl, rfl, rfl, List.Sublist.refl _, fun t ht => Or.inl ht⟩
  | some pos =>
    rw [hl] at h
    obtain ⟨hd, ha, hr, hc, hp, hm, rec, hrecsz, hrecs⟩ := create_trade_record_spec h
    refine ⟨hd, hr, hc, hp, hm, ?_, ?_⟩
    · rw [ha]
      exact List.eraseP_sublist _
    · intro t ht
      rw [hrecs] at ht
      rcases List.mem_append.mp ht with hold | hnew
      · exact Or.inl hold
      · right
        refine ⟨(pr.1, pos), lookup_some_mem hl, ?_⟩
        simp only [List.mem_singleton] at hnew
        rw [hnew, hrecsz]

/-- Effect of the whole closing fold of process_exits. -/
lemma exits_fold_spec {bar : Bar} {mode : SlippageMode} {rules : ExchangeRules}
    {prs : List (String × ExitInfo)} :
    ∀ {s s' : TradeTableGenerator},
      prs.foldlM (exit_step bar mode rules) s = Except.ok s' →
      s'.default_size_usd = s.default_size_usd ∧
      s'.rejected_trades = s.rejected_trades ∧
      s'.current_equity = s.current_equity ∧
      s'.peak_equity = s.peak_equity ∧
      s'.max_drawdown = s.max_drawdown ∧
      List.Sublist s'.active_positions s.active_positions ∧
      (∀ t ∈ s'.trade_records,
        t ∈ s.trade_records ∨ ∃ p ∈ s.active_positions, t.size_usd = p.2.size_usd) := by
  induction prs with
  | nil =>
    intro s s' h
    simp only [List.foldlM, except_pure_eq_ok, Except.ok.injEq] at h
    subst h
    exact ⟨rfl, rfl, rfl, rfl, rfl, List.Sublist.refl _, fun t ht => Or.inl ht⟩
  | cons pr prs ih =>
    intro s s' h
    simp only [List.foldlM] at h
    cases hstep : exit_step bar mode rules s pr with
    | error e => rw [hstep] at h; simp at h
    | ok s1 =>
      rw [hstep] at h
      simp only [except_bind_ok] at h
      obtain ⟨hd1, hr1, hc1, hp1, hm1, ha1, ht1⟩ := exit_step_spec hstep
      obtain ⟨hd2, hr2, hc2, hp2, hm2, ha2, ht2⟩ := ih h
      refine ⟨hd2.trans hd1, hr2.trans hr1, hc2.trans hc1, hp2.trans hp1, hm2.trans hm1,
        ha2.trans ha1, ?_⟩
      intro t ht
      rcases ht2 t ht with hin1 | ⟨p, hpmem, hsz⟩
      · rcases ht1 t hin1 with hold | ⟨p, hpmem, hsz⟩
        · exact Or.inl hold
        · exact Or.inr ⟨p, hpmem, hsz⟩
      · exact Or.inr ⟨p, ha1.mem hpmem, hsz⟩

/-- Effect of process_exits as a whole. -/
lemma process_exits_spec {bar : Bar} {pol : IntrabarPolicy} {mode : SlippageMode}
    {rules : ExchangeRules} {s s' : TradeTableGenerator}
    (h : process_exits bar pol mode rules s = Except.ok s') :
    s'.default_size_usd = s.default_size_usd ∧
    s'.rejected_trades = s.rejected_trades ∧
    s'.current_equity = s.current_equity ∧
    s'.peak_equity = s.peak_equity ∧
    s'.max_drawdown = s.max_drawdown ∧
    List.Sublist s'.active_positions s.active_positions ∧
    (∀ t ∈ s'.trade_records,
      t ∈ s.trade_records ∨ ∃ p ∈ s.active_positions, t.size_usd = p.2.size_usd) :=
  exits_fold_spec h

/-- Effect of the equity and drawdown update: only the three equity
fields change; peak equity and max drawdown never decrease. -/
lemma update_equity_spec {s s' : TradeTableGenerator}
    (h : update_equity_and_drawdown s = Except.ok s') :
    s'.default_size_usd = s.default_size_usd ∧
    s'.active_positions = s.active_positions ∧
    s'.trade_records = s.trade_records ∧
    s'.rejected_trades = s.rejected_trades ∧
    s.peak_equity ≤ s'.peak_equity ∧
    s.max_drawdown ≤ s'.max_drawdown := by
  unfold update_equity_and_drawdown at h
  cases hq : qdiv
      ((if (10000 : ℚ) + (s.trade_records.map TradeRecord.pnl_usd).sum > s.peak_equity then
          (10000 : ℚ) + (s.trade_records.map TradeRecord.pnl_usd).sum
        else s.peak_equity) -
        ((10000 : ℚ) + (s.trade_records.map TradeRecord.pnl_usd).sum))
      (if (10000 : ℚ) + (s.trade_records.map TradeRecord.pnl_usd).sum > s.peak_equity then
          (10000 : ℚ) + (s.trade_records.map TradeRecord.pnl_usd).sum
        else s.peak_equity) with
  | error e => simp [hq] at h
  | ok dd =>
    simp only [hq, except_bind_ok, except_pure_eq_ok, Except.ok.injEq] at h
    subst h
    refine ⟨rfl, rfl, rfl, rfl, ?_, ?_⟩
    · by_cases hgt : (10000 : ℚ) + (s.trade_records.map TradeRecord.pnl_usd).sum > s.peak_equity
      · simp only [hgt, if_pos]
        exact le_of_lt hgt
      · simp only [hgt, if_neg, not_false_iff]
        exact le_refl _
    · by_cases hgt : dd > s.max_drawdown
      · simp only [hgt, if_pos]
        exact le_of_lt hgt
      · simp only [hgt, if_neg, not_false_iff]
        exact le_refl _

/-- Reachability invariant of the generator state: the default notional
is the constructor's 1000, every open position and recorded trade is
sized by it, position keys are duplicate-free, peak equity never drops
below the starting 10000, and max drawdown is nonnegative. -/
def GenInv (s : TradeTableGenerator) : Prop :=
  s.default_size_usd = 1000 ∧
  (∀ p ∈ s.active_positions, p.2.size_usd = 1000) ∧
  (∀ t ∈ s.trade_records, t.size_usd = 1000) ∧
  (s.active_positions.map Prod.fst).Nodup ∧
  (10000 : ℚ) ≤ s.peak_equity ∧
  0 ≤ s.max_drawdown

lemma geninv_new : GenInv TradeTableGenerator.new := by
  refine ⟨rfl, ?_, ?_, ?_, le_refl _, le_refl _⟩ <;> simp [TradeTableGenerator.new]

/-- One bar preserves the reachability invariant and never decreases the
max drawdown. -/
lemma process_bar_spec {bar : Bar} {sigs : List StrategySignal} {pol : IntrabarPolicy}
    {mode : SlippageMode} {rules : ExchangeRules} {s s' : TradeTableGenerator}
    (h : process_bar bar sigs pol mode rules s = Except.ok s') :
    (GenInv s → GenInv s') ∧ s.max_drawdown ≤ s'.max_drawdown := by
  unfold process_bar at h
  cases h1 : process_entry_signals bar sigs pol mode rules s with
  | error e => rw [h1] at h; simp at h
  | ok s1 =>
    rw [h1] at h
    simp only [except_bind_ok] at h
    cases h2 : process_exits bar pol mode rules s1 with
    | error e => rw [h2] at h; simp at h
    | ok s2 =>
      rw [h2] at h
      simp only [except_bind_ok] at h
      obtain ⟨ed, et, ec, ep, em, ea, en⟩ := process_entry_signals_spec h1
      obtain ⟨xd, xr, xc, xp, xm, xa, xt⟩ := process_exits_spec h2
      obtain ⟨ud, ua, ut, ur, up, um⟩ := update_equity_spec h
      constructor
      · rintro ⟨hdef, hpos, hrec, hnd, hpk, hdd⟩
        refine ⟨?_, ?_, ?_, ?_, ?_, ?_⟩
        · rw [ud, xd, ed, hdef]
        · intro p hp
          rw [ua] at hp
          have hp1 : p ∈ s1.active_positions := xa.subset hp
          rcases ea p hp1 with hmem | hsz
          · exact hpos p hmem
          · rw [hsz, hdef]
        · intro t ht
          rw [ut] at ht
          rcases xt t ht with hin | ⟨p, hpmem, hsz⟩
          · rw [et] at hin
            exact hrec t hin
          · rcases ea p hpmem with hmem | hszp
            · rw [hsz]
              exact hpos p hmem
            · rw [hsz, hszp, hdef]
        · rw [ua]
          exact ((xa.map Prod.fst).nodup (en hnd))
        · calc (10000 : ℚ) ≤ s.peak_equity := hpk
            _ = s2.peak_equity := (xp.trans ep).symm
            _ ≤ s'.peak_equity := up
        · calc (0 : ℚ) ≤ s.max_drawdown := hdd
            _ = s2.max_drawdown := (xm.trans em).symm
            _ ≤ s'.max_drawdown := um
      · calc s.max_drawdown = s2.max_drawdown := (xm.trans em).symm
          _ ≤ s'.max_drawdown := um

/-- Folding process_bar over any bar list preserves the invariant. -/
lemma run_fold_inv {pol : IntrabarPolicy} {mode : SlippageMode} {rules : ExchangeRules}
    {input : List (Bar × List StrategySignal)} :
    ∀ {s s' : TradeTableGenerator},
      input.foldlM (fun s bs => process_bar bs.1 bs.2 pol mode rules s) s = Except.ok s' →
      GenInv s → GenInv s' := by
  induction input with
  | nil =>
    intro s s' h
    simp only [List.foldlM, except_pure_eq_ok, Except.ok.injEq] at h
    subst h
    exact id
  | cons x xs ih =>
    intro s s' h hi
    simp only [List.foldlM] at h
    cases hstep : process_bar x.1 x.2 pol mode rules s with
    | error e => rw [hstep] at h; simp at h
    | ok s1 =>
      rw [hstep] at h
      simp only [except_bind_ok] at h
      exact ih h ((process_bar_spec hstep).1 hi)

/-- Every state an entire run reaches satisfies the invariant. -/
lemma process_run_inv {input : List (Bar × List StrategySignal)} {pol : IntrabarPolicy}
    {mode : SlippageMode} {rules : ExchangeRules} {s' : TradeTableGenerator}
    (h : process_run input pol mode rules = Except.ok s') : GenInv s' :=
  run_fold_inv h geninv_new

lemma calculate_fee_total (q p : ℚ) (rules : ExchangeRules)
    (hprec : rules.precision_price < 20) :
    ∃ f, calculate_fee q p rules = Except.ok f := by
  have hlt : (10 : Nat) ^ rules.precision_price < 2 ^ 64 := by
    calc (10 : Nat) ^ rules.precision_price ≤ 10 ^ 19 :=
          Nat.pow_le_pow_right (by norm_num) (by omega)
      _ < 2 ^ 64 := by norm_num
  have hp : ((10 ^ rules.precision_price % 2 ^ 64 : Nat) : ℚ) ≠ 0 := by
    rw [Nat.mod_eq_of_lt hlt]
    exact_mod_cast pow_ne_zero rules.precision_price (by norm_num)
  cases hres : calculate_fee q p rules with
  | ok f => exact ⟨f, rfl⟩
  | error e =>
    simp only [calculate_fee, qdiv] at hres
    rw [if_neg hp] at hres
    simp at hres

lemma apply_symbol_filters_total (x : ℚ) (rules : ExchangeRules)
    (hl : rules.lot_size ≠ 0) : ∃ q, apply_symbol_filters x rules = Except.ok q := by
  cases hres : apply_symbol_filters x rules with
  | ok f => exact ⟨f, rfl⟩
  | error e =>
    simp only [apply_symbol_filters, qdiv] at hres
    rw [if_neg hl] at hres
    simp at hres

lemma apply_slippage_total (b : ℚ) (side : TradeSide) (mode : SlippageMode)
    (rules : ExchangeRules) (ht : rules.tick_size ≠ 0) :
    ∃ q, apply_slippage b side mode rules = Except.ok q := by
  cases hres : apply_slippage b side mode rules with
  | ok f => exact ⟨f, rfl⟩
  | error e =>
    simp only [apply_slippage, qdiv] at hres
    rw [if_neg ht] at hres
    simp at hres

lemma calculate_entry_price_total (bar : Bar) (side : TradeSide)
    (pol : IntrabarPolicy) (mode : SlippageMode) (rules : ExchangeRules)
    (ht : rules.tick_size ≠ 0) :
    ∃ q, calculate_entry_price bar side pol mode rules = Except.ok q := by
  unfold calculate_entry_price
  exact apply_slippage_total _ side mode rules ht

lemma entry_signal_step_total (bar : Bar) (pol : IntrabarPolicy) (mode : SlippageMode)
    (rules : ExchangeRules) (s : TradeTableGenerator) (sig : StrategySignal)
    (hc : bar.close ≠ 0) (hl : rules.lot_size ≠ 0) (ht : rules.tick_size ≠ 0)
    (hprec : rules.precision_price < 20) :
    ∃ s', entry_signal_step bar pol mode rules s sig = Except.ok s' := by
  unfold entry_signal_step
  split
  · exact ⟨s, rfl⟩
  · have hraw : qdiv s.default_size_usd bar.close =
        Except.ok (s.default_size_usd / bar.close) := by
      simp [qdiv, hc]
    obtain ⟨quantity, hq⟩ := apply_symbol_filters_total (s.default_size_usd / bar.close) rules hl
    simp only [hraw, except_bind_ok, hq]
    split
    · exact ⟨_, rfl⟩
    · obtain ⟨price, hp⟩ := calculate_entry_price_total bar sig.side pol mode rules ht
      obtain ⟨fee, hf⟩ := calculate_fee_total quantity price rules hprec
      simp only [hp, except_bind_ok, hf, except_pure_eq_ok]
      exact ⟨_, rfl⟩

lemma process_entry_signals_total (bar : Bar) (sigs : List StrategySignal)
    (pol : IntrabarPolicy) (mode : SlippageMode) (rules : ExchangeRules)
    (hc : bar.close ≠ 0) (hl : rules.lot_size ≠ 0) (ht : rules.tick_size ≠ 0)
    (hprec : rules.precision_price < 20) :
    ∀ s : TradeTableGenerator,
      ∃ s', process_entry_signals bar sigs pol mode rules s = Except.ok s' := by
  induction sigs with
  | nil => intro s; exact ⟨s, rfl⟩
  | cons sig sigs ih =>
    intro s
    obtain ⟨s1, h1⟩ := entry_signal_step_total bar pol mode rules s sig hc hl ht hprec
    obtain ⟨s', h2⟩ := ih s1
    refine ⟨s', ?_⟩
    simp only [process_entry_signals, List.foldlM, h1, except_bind_ok]
    simpa [process_entry_signals] using h2

lemma create_trade_record_total (s : TradeTableGenerator) (pos : ActivePosition)
    (e : ExitInfo) (bar : Bar) (mode : SlippageMode) (rules : ExchangeRules)
    (hsz : pos.size_usd ≠ 0) (hprec : rules.precision_price < 20) :
    ∃ s', create_trade_record s pos e bar mode rules = Except.ok s' := by
  obtain ⟨fee, hf⟩ := calculate_fee_total pos.quantity e.exit_price rules hprec
  have hq : ∀ x : ℚ, qdiv x pos.size_usd = Except.ok (x / pos.size_usd) := by
    intro x; simp [qdiv, hsz]
  unfold create_trade_record
  simp only [hf, except_bind_ok, hq, except_pure_eq_ok]
  exact ⟨_, rfl⟩

lemma exit_step_total (bar : Bar) (mode : SlippageMode) (rules : ExchangeRules)
    (s : TradeTableGenerator) (pr : String × ExitInfo)
    (hszs : ∀ p ∈ s.active_positions, p.2.size_usd = 1000)
    (hprec : rules.precision_price < 20) :
    ∃ s', exit_step bar mode rules s pr = Except.ok s' := by
  unfold exit_step
  cases hl : s.active_positions.lookup pr.1 with
  | none => exact ⟨s, rfl⟩
  | some pos =>
    have hmem := lookup_some_mem hl
    have hsz : pos.size_usd ≠ 0 := by
      have h1000 := hszs (pr.1, pos) hmem
      rw [h1000]
      norm_num
    exact create_trade_record_total _ pos pr.2 bar mode rules hsz hprec

lemma exits_fold_total (bar : Bar) (mode : SlippageMode) (rules : ExchangeRules)
    (prs : List (String × ExitInfo)) (hprec : rules.precision_price < 20) :
    ∀ s : TradeTableGenerator,
      (∀ p ∈ s.active_positions, p.2.size_usd = 1000) →
      ∃ s', prs.foldlM (exit_step bar mode rules) s = Except.ok s' := by
  induction prs with
  | nil => intro s _; exact ⟨s, rfl⟩
  | cons pr prs ih =>
    intro s hszs
    obtain ⟨s1, h1⟩ := exit_step_total bar mode rules s pr hszs hprec
    have hszs1 : ∀ p ∈ s1.active_positions, p.2.size_usd = 1000 := by
      intro p hp
      obtain ⟨-, -, -, -, -, hsub, -⟩ := exit_step_spec h1
      exact hszs p (hsub.subset hp)
    obtain ⟨s', h2⟩ := ih s1 hszs1
    refine ⟨s', ?_⟩
    simp only [List.foldlM, h1, except_bind_ok]
    exact h2

lemma process_exits_total (bar : Bar) (pol : IntrabarPolicy) (mode : SlippageMode)
    (rules : ExchangeRules) (s : TradeTableGenerator)
    (hszs : ∀ p ∈ s.active_positions, p.2.size_usd = 1000)
    (hprec : rules.precision_price < 20) :
    ∃ s', process_exits bar pol mode rules s = Except.ok s' :=
  exits_fold_total bar mode rules _ hprec s hszs

lemma update_equity_total {s : TradeTableGenerator}
    (hpk : (10000 : ℚ) ≤ s.peak_equity) :
    ∃ s', update_equity_and_drawdown s = Except.ok s' := by
  have hpk0 :
      (if (10000 : ℚ) + (s.trade_records.map TradeRecord.pnl_usd).sum > s.peak_equity
        then (10000 : ℚ) + (s.trade_records.map TradeRecord.pnl_usd).sum
        else s.peak_equity) ≠ 0 := by
    split
    · rename_i hgt
      exact ne_of_gt (lt_trans (by norm_num) (lt_of_le_of_lt hpk hgt))
    · exact ne_of_gt (lt_of_lt_of_le (by norm_num) hpk)
  cases hres : update_equity_and_drawdown s with
  | ok s1 => exact ⟨s1, rfl⟩
  | error e =>
    simp only [update_equity_and_drawdown, qdiv] at hres
    rw [if_neg hpk0] at hres
    simp at hres

/-- On a bar with a nonzero close, under rules with nonzero lot and tick
sizes and a price precision below 20 (where the u64 precision power
neither overflows nor wraps), process_bar succeeds from any invariant
state. -/
lemma process_bar_total (bar : Bar) (sigs : List StrategySignal) (pol : IntrabarPolicy)
    (mode : SlippageMode) (rules : ExchangeRules) (s : TradeTableGenerator)
    (hi : GenInv s) (hc : bar.close ≠ 0) (hl : rules.lot_size ≠ 0)
    (ht : rules.tick_size ≠ 0) (hprec : rules.precision_price < 20) :
    ∃ s', process_bar bar sigs pol mode rules s = Except.ok s' := by
  obtain ⟨hdef, hpos, hrec, hnd, hpk, hdd⟩ := hi
  obtain ⟨s1, h1⟩ := process_entry_signals_total bar sigs pol mode rules hc hl ht hprec s
  obtain ⟨ed, et, ec, ep, em, ea, en⟩ := process_entry_signals_spec h1
  have hpos1 : ∀ p ∈ s1.active_positions, p.2.size_usd = 1000 := by
    intro p hp
    rcases ea p hp with hmem | hsz
    · exact hpos p hmem
    · rw [hsz, hdef]
  obtain ⟨s2, h2⟩ := process_exits_total bar pol mode rules s1 hpos1 hprec
  obtain ⟨xd, xr, xc, xp, xm, xa, xt⟩ := process_exits_spec h2
  have hpk2 : (10000 : ℚ) ≤ s2.peak_equity := by
    rw [xp, ep]; exact hpk
  obtain ⟨s3, h3⟩ := update_equity_total hpk2
  refine ⟨s3, ?_⟩
  unfold process_bar
  rw [h1]
  simp only [except_bind_ok]
  rw [h2]
  simp only [except_bind_ok]
  exact h3

/-- Folding process_bar over bars with nonzero closes never fails. -/
lemma run_fold_total (pol : IntrabarPolicy) (mode : SlippageMode) (rules : ExchangeRules)
    (input : List (Bar × List StrategySignal))
    (hc : ∀ bs ∈ input, bs.1.close ≠ 0) (hl : rules.lot_size ≠ 0)
    (ht : rules.tick_size ≠ 0) (hprec : rules.precision_price < 20) :
    ∀ s : TradeTableGenerator, GenInv s →
      ∃ s', input.foldlM (fun s bs => process_bar bs.1 bs.2 pol mode rules s) s =
        Except.ok s' := by
  induction input with
  | nil => intro s _; exact ⟨s, rfl⟩
  | cons x xs ih =>
    intro s hi
    obtain ⟨s1, h1⟩ := process_bar_total x.1 x.2 pol mode rules s hi
      (hc x (List.mem_cons_self _ _)) hl ht hprec
    obtain ⟨s', h2⟩ := ih (fun bs hbs => hc bs (List.mem_cons_of_mem _ hbs)) s1
      ((process_bar_spec h1).1 hi)
    refine ⟨s', ?_⟩
    simp only [List.foldlM, h1, except_bind_ok]
    exact h2

/-- Every supported name dispatches to some computation. -/
lemma compute_supported_isSome {name : String} (hs : name ∈ supported_indicators)
    (bars : List Bar) : ∃ vals, compute_indicator name bars = some vals := by
  simp only [supported_indicators, List.mem_cons, List.mem_singleton,
    List.not_mem_nil, or_false] at hs
  rcases hs with rfl | rfl | rfl | rfl | rfl | rfl | rfl
  all_goals exact ⟨_, rfl⟩

/-- Every supported indicator yields the empty sequence on empty bars. -/
lemma compute_supported_empty {name : String} (hs : name ∈ supported_indicators) :
    compute_indicator name [] = some [] := by
  simp only [supported_indicators, List.mem_cons, List.mem_singleton,
    List.not_mem_nil, or_false] at hs
  rcases hs with rfl | rfl | rfl | rfl | rfl | rfl | rfl
  all_goals rfl

/-- Unsupported names fall through the dispatch. -/
lemma compute_unsupported {name : String} (hn : name ∉ supported_indicators)
    (bars : List Bar) : compute_indicator name bars = none := by
  simp only [supported_indicators, List.mem_cons, List.mem_singleton,
    List.not_mem_nil, or_false, not_or] at hn
  obtain ⟨h1, h2, h3, h4, h5, h6, h7⟩ := hn
  simp [compute_indicator, h1, h2, h3, h4, h5, h6, h7]

/-- C3, amended.  The code sizes every accepted entry by the generator's
configured default notional of 1000 dollars and records that default as
size_usd; the signal's own size field is never consulted (and, being a
plain field, cannot be unset). -/
theorem c3_size_always_default (input : List (Bar × List StrategySignal))
    (pol : IntrabarPolicy) (mode : SlippageMode) (rules : ExchangeRules)
    (s' : TradeTableGenerator)
    (h : process_run input pol mode rules = Except.ok s') :
    (∀ p ∈ s'.active_positions, p.2.size_usd = 1000) ∧
    (∀ t ∈ s'.trade_records, t.size_usd = 1000) := by
  obtain ⟨-, hpos, hrec, -, -, -⟩ := process_run_inv h
  exact ⟨hpos, hrec⟩

/-- Final generator state of the run opening one position sized by a
2000-dollar signal. -/
def c3_state : TradeTableGenerator :=
  ((process_run [(demo_bar_flat, [size_signal])] IntrabarPolicy.linearInterpolation
    SlippageMode.none demo_rules).toOption).getD TradeTableGenerator.new

unseal Rat.mul Rat.inv Rat.add Rat.sub Rat.ofScientific in
theorem c3_size_always_default_witness :
    process_run [(demo_bar_flat, [size_signal])] IntrabarPolicy.linearInterpolation
      SlippageMode.none demo_rules = Except.ok c3_state ∧
    ((∀ p ∈ c3_state.active_positions, p.2.size_usd = 1000) ∧
      (∀ t ∈ c3_state.trade_records, t.size_usd = 1000)) :=
  ⟨by decide, c3_size_always_default [(demo_bar_flat, [size_signal])]
    IntrabarPolicy.linearInterpolation SlippageMode.none demo_rules c3_state (by decide)⟩

/-- Lot-quantized quantity the entry admission computes from a notional
at the bar's close. -/
def quantized_qty (bar : Bar) (rules : ExchangeRules) (notional : ℚ) : ℚ :=
  (roundBankers (notional / bar.close / rules.lot_size) : ℚ) * rules.lot_size

/-- C5, amended.  For an entry signal on a flat symbol (nonzero close,
lot and tick, and price precision below 20 so the u64 precision power of
the entry-fee computation neither overflows nor wraps), a RejectedTrade
with the source's reason string Rejected – NotionalMin is appended and
no position opens exactly when the lot-quantized quantity times the
bar's close is below min_notional; otherwise a position opens and no
rejection is recorded. -/
theorem c5_notional_min_iff (bar : Bar) (sig : StrategySignal) (pol : IntrabarPolicy)
    (mode : SlippageMode) (rules : ExchangeRules) (s : TradeTableGenerator)
    (hflat : s.active_positions.lookup sig.symbol = none)
    (hc : bar.close ≠ 0) (hl : rules.lot_size ≠ 0) (ht : rules.tick_size ≠ 0)
    (hprec : rules.precision_price < 20) :
    (quantized_qty bar rules s.default_size_usd * bar.close < rules.min_notional →
      process_entry_signals bar [sig] pol mode rules s = Except.ok
        { s with rejected_trades := s.rejected_trades ++
            [{ timestamp := bar.timestamp
               symbol := sig.symbol
               side := sig.side
               reason := "Rejected – NotionalMin"
               notional := quantized_qty bar rules s.default_size_usd * bar.close }] }) ∧
    (¬ quantized_qty bar rules s.default_size_usd * bar.close < rules.min_notional →
      ∃ pos, process_entry_signals bar [sig] pol mode rules s = Except.ok
          { s with active_positions := (sig.symbol, pos) :: s.active_positions } ∧
        pos.quantity = quantized_qty bar rules s.default_size_usd ∧
        pos.size_usd = s.default_size_usd) := by
  have hraw : qdiv s.default_size_usd bar.close =
      Except.ok (s.default_size_usd / bar.close) := by
    simp [qdiv, hc]
  have hq : apply_symbol_filters (s.default_size_usd / bar.close) rules =
      Except.ok (quantized_qty bar rules s.default_size_usd) := by
    simp only [apply_symbol_filters, qdiv]
    rw [if_neg hl]
    simp only [except_bind_ok, except_pure_eq_ok, quantized_qty]
  have hflat' : (s.active_positions.lookup sig.symbol).isSome = false := by
    rw [hflat]; rfl
  constructor
  · intro hlt
    simp only [process_entry_signals, List.foldlM, entry_signal_step, hflat',
      Bool.false_eq_true, if_false, hraw, except_bind_ok, hq]
    rw [if_pos hlt]
    rfl
  · intro hge
    obtain ⟨price, hp⟩ := calculate_entry_price_total bar sig.side pol mode rules ht
    obtain ⟨fee, hf⟩ := calculate_fee_total (quantized_qty bar rules s.default_size_usd)
      price rules hprec
    refine ⟨{ symbol := sig.symbol
              trade_type := match sig.side with
                | TradeSide.buy => TradeType.long
                | TradeSide.sell => TradeType.short
              entry_time := bar.timestamp
              entry_price := price
              quantity := quantized_qty bar rules s.default_size_usd
              take_profit := sig.take_profit
              stop_loss := sig.stop_loss
              time_to_live := sig.time_to_live
              entry_fee := fee
              size_usd := s.default_size_usd }, ?_, rfl, rfl⟩
    simp only [process_entry_signals, List.foldlM, entry_signal_step, hflat',
      Bool.false_eq_true, if_false, hraw, except_bind_ok, hq]
    rw [if_neg hge]
    simp only [hp, except_bind_ok, hf, except_pure_eq_ok]

unseal Rat.mul Rat.inv Rat.add Rat.sub Rat.ofScientific in
theorem c5_notional_min_iff_witness :
    (TradeTableGenerator.new.active_positions.lookup demo_signal_ttl.symbol = none ∧
      reject_bar.close ≠ 0 ∧ reject_rules.lot_size ≠ 0 ∧ reject_rules.tick_size ≠ 0 ∧
      reject_rules.precision_price < 20 ∧
      quantized_qty reject_bar reject_rules TradeTableGenerator.new.default_size_usd *
        reject_bar.close < reject_rules.min_notional) ∧
    process_entry_signals reject_bar [demo_signal_ttl] IntrabarPolicy.linearInterpolation
      SlippageMode.none reject_rules TradeTableGenerator.new = Except.ok
      { TradeTableGenerator.new with
        rejected_trades := TradeTableGenerator.new.rejected_trades ++
          [{ timestamp := reject_bar.timestamp
             symbol := demo_signal_ttl.symbol
             side := demo_signal_ttl.side
             reason := "Rejected – NotionalMin"
             notional := quantized_qty reject_bar reject_rules
               TradeTableGenerator.new.default_size_usd * reject_bar.close }] } :=
  ⟨⟨by decide, by decide, by decide, by decide, by decide, by decide⟩,
    (c5_notional_min_iff reject_bar demo_signal_ttl IntrabarPolicy.linearInterpolation
      SlippageMode.none reject_rules TradeTableGenerator.new (by decide) (by decide)
      (by decide) (by decide) (by decide)).1 (by decide)⟩

/-- C6.  Each symbol has at most one open position at any reachable
state (the position keys are duplicate-free), and while a symbol is
open, an entry signal for it changes no state: no position opens and no
rejection is appended. -/
theorem c6_at_most_one_position :
    (∀ (input : List (Bar × List StrategySignal)) (pol : IntrabarPolicy)
      (mode : SlippageMode) (rules : ExchangeRules) (s' : TradeTableGenerator),
      process_run input pol mode rules = Except.ok s' →
      (s'.active_positions.map Prod.fst).Nodup) ∧
    (∀ (bar : Bar) (pol : IntrabarPolicy) (mode : SlippageMode) (rules : ExchangeRules)
      (s : TradeTableGenerator) (sig : StrategySignal) (p : ActivePosition),
      s.active_positions.lookup sig.symbol = some p →
      process_entry_signals bar [sig] pol mode rules s = Except.ok s) := by
  constructor
  · intro input pol mode rules s' h
    obtain ⟨-, -, -, hnd, -, -⟩ := process_run_inv h
    exact hnd
  · intro bar pol mode rules s sig p h
    have hsome : (s.active_positions.lookup sig.symbol).isSome = true := by
      rw [h]; rfl
    simp only [process_entry_signals, List.foldlM, entry_signal_step, hsome, if_true,
      except_pure_eq_ok, except_bind_ok]

/-- Final generator state of the one-hour run. -/
def c6_state : TradeTableGenerator :=
  ((process_run one_hour_input IntrabarPolicy.linearInterpolation
    SlippageMode.none demo_rules).toOption).getD TradeTableGenerator.new

unseal Rat.mul Rat.inv Rat.add Rat.sub Rat.ofScientific in
theorem c6_at_most_one_position_witness :
    (process_run one_hour_input IntrabarPolicy.linearInterpolation SlippageMode.none
        demo_rules = Except.ok c6_state ∧
      (c6_state.active_positions.map Prod.fst).Nodup) ∧
    (straddle_state.active_positions.lookup demo_signal_ttl.symbol =
        some straddle_position ∧
      process_entry_signals demo_bar_flat [demo_signal_ttl]
        IntrabarPolicy.linearInterpolation SlippageMode.none demo_rules straddle_state =
        Except.ok straddle_state) :=
  ⟨⟨by decide, c6_at_most_one_position.1 one_hour_input
      IntrabarPolicy.linearInterpolation SlippageMode.none demo_rules c6_state
      (by decide)⟩,
    ⟨by decide, c6_at_most_one_position.2 demo_bar_flat
      IntrabarPolicy.linearInterpolation SlippageMode.none demo_rules straddle_state
      demo_signal_ttl straddle_position (by decide)⟩⟩

/-- C7, amended.  The generator's max_drawdown is nonnegative at every
reachable state and never decreases from one bar to the next; the upper
bound 1 claimed by the spec does NOT hold in general (see the
counterexample), since equity can fall below zero while peak equity
stays positive. -/
theorem c7_drawdown_nonneg_monotone (input : List (Bar × List StrategySignal))
    (pol : IntrabarPolicy) (mode : SlippageMode) (rules : ExchangeRules)
    (s' : TradeTableGenerator)
    (h : process_run input pol mode rules = Except.ok s') :
    0 ≤ s'.max_drawdown ∧
    ∀ (bar : Bar) (sigs : List StrategySignal) (s'' : TradeTableGenerator),
      process_bar bar sigs pol mode rules s' = Except.ok s'' →
      s'.max_drawdown ≤ s''.max_drawdown := by
  obtain ⟨-, -, -, -, -, hdd⟩ := process_run_inv h
  exact ⟨hdd, fun bar sigs s'' h'' => (process_bar_spec h'').2⟩

/-- Final generator state of the heavy-loss run. -/
def c7_state : TradeTableGenerator :=
  ((process_run [(loss_bar, [loss_signal])] IntrabarPolicy.linearInterpolation
    SlippageMode.none demo_rules).toOption).getD TradeTableGenerator.new

unseal Rat.mul Rat.inv Rat.add Rat.sub Rat.ofScientific in
theorem c7_drawdown_nonneg_monotone_witness :
    (process_run [(loss_bar, [loss_signal])] IntrabarPolicy.linearInterpolation
        SlippageMode.none demo_rules = Except.ok c7_state) ∧
    (0 ≤ c7_state.max_drawdown ∧
      ∀ (bar : Bar) (sigs : List StrategySignal) (s'' : TradeTableGenerator),
        process_bar bar sigs IntrabarPolicy.linearInterpolation SlippageMode.none
          demo_rules c7_state = Except.ok s'' →
        c7_state.max_drawdown ≤ s''.max_drawdown) :=
  ⟨by decide, c7_drawdown_nonneg_monotone [(loss_bar, [loss_signal])]
    IntrabarPolicy.linearInterpolation SlippageMode.none demo_rules c7_state (by decide)⟩

/-- C8.  For a supported indicator, after a first successful computation
through a fresh registry, computing it a second time (served from the
cache when bars are nonempty) returns exactly the cache-free fresh
computation of that indicator over the market data's bars, and leaves
the registry unchanged. -/
theorem c8_cache_hit_matches_fresh (indicator_name : String) (md : MarketData)
    (v : List IndicatorValue) (r1 : IndicatorRegistry)
    (hs : indicator_name ∈ supported_indicators)
    (h1 : IndicatorRegistry.new.calculate indicator_name md = Except.ok (v, r1)) :
    r1.calculate indicator_name md = Except.ok (v, r1) ∧
    compute_indicator indicator_name md.bars = some v := by
  obtain ⟨vals, hvals⟩ := compute_supported_isSome hs md.bars
  by_cases hb : md.bars.isEmpty
  · have hbe : md.bars = [] := List.isEmpty_iff.mp hb
    simp only [IndicatorRegistry.calculate, IndicatorRegistry.new, List.lookup, hb,
      if_true, Except.ok.injEq, Prod.mk.injEq] at h1
    obtain ⟨hv, hr⟩ := h1
    subst hv
    subst hr
    constructor
    · simp only [IndicatorRegistry.calculate, IndicatorRegistry.new, List.lookup, hb,
        if_true]
    · rw [hbe]
      exact compute_supported_empty hs
  · simp only [IndicatorRegistry.calculate, IndicatorRegistry.new, List.lookup, hb,
      Bool.false_eq_true, if_false, hvals] at h1
    simp only [Except.ok.injEq, Prod.mk.injEq] at h1
    obtain ⟨hv, hr⟩ := h1
    subst hv
    constructor
    · have hkey : r1.cache.lookup (indicator_name ++ "_" ++ md.symbol) = some vals := by
        rw [← hr]
        simp [List.lookup]
      simp only [IndicatorRegistry.calculate, hkey]
    · exact hvals

/-- Market data with a single bar on the symbol X. -/
def c8_md : MarketData :=
  { symbol := "X", timeframe := "1m", bars := [demo_bar_flat], trades := []
    rules := ExchangeRules.default }

/-- Registry state after computing sma over c8_md: one bar is shorter
than the period 20, so the cached value sequence is empty. -/
def c8_r1 : IndicatorRegistry :=
  { cache := [("sma" ++ "_" ++ c8_md.symbol, [])] }

unseal Rat.mul Rat.inv Rat.add Rat.sub Rat.ofScientific in
theorem c8_cache_hit_matches_fresh_witness :
    (("sma" ∈ supported_indicators) ∧
      IndicatorRegistry.new.calculate ("sma") c8_md = Except.ok ([], c8_r1)) ∧
    (c8_r1.calculate ("sma") c8_md = Except.ok ([], c8_r1) ∧
      compute_indicator ("sma") c8_md.bars = some []) :=
  ⟨⟨by decide, by decide⟩,
    c8_cache_hit_matches_fresh ("sma") c8_md [] c8_r1 (by decide) (by decide)⟩

/-- C9, amended.  For a name outside the supported set whose cache key
is absent (as in a fresh registry), calculate fails with the
unknown-indicator error when the bar sequence is NONEMPTY; when the bar
sequence is empty it instead returns the empty sequence without error —
for unsupported and supported names alike — because the empty-bars
short circuit precedes the name dispatch. -/
theorem c9_unknown_indicator_amended (indicator_name : String) (md : MarketData)
    (r : IndicatorRegistry)
    (hn : indicator_name ∉ supported_indicators)
    (hc : r.cache.lookup (indicator_name ++ "_" ++ md.symbol) = none) :
    (md.bars = [] → r.calculate indicator_name md = Except.ok ([], r)) ∧
    (md.bars ≠ [] →
      r.calculate indicator_name md =
        Except.error (Err.unknownIndicator indicator_name)) := by
  constructor
  · intro he
    have hb : md.bars.isEmpty = true := by rw [he]; rfl
    simp only [IndicatorRegistry.calculate, hc, hb, if_true]
  · intro he
    have hb : md.bars.isEmpty = false := by
      cases hbars : md.bars with
      | nil => exact absurd hbars he
      | cons b bs => rfl
    simp only [IndicatorRegistry.calculate, hc, hb, Bool.false_eq_true, if_false,
      compute_unsupported hn]

unseal Rat.mul Rat.inv Rat.add Rat.sub Rat.ofScientific in
theorem c9_unknown_indicator_amended_witness :
    (("macd" ∉ supported_indicators) ∧
      IndicatorRegistry.new.cache.lookup ("macd" ++ "_" ++ md_empty.symbol) = none) ∧
    ((md_empty.bars = [] →
        IndicatorRegistry.new.calculate ("macd") md_empty =
          Except.ok ([], IndicatorRegistry.new)) ∧
      (md_empty.bars ≠ [] →
        IndicatorRegistry.new.calculate ("macd") md_empty =
          Except.error (Err.unknownIndicator ("macd")))) :=
  ⟨⟨by decide, by decide⟩,
    c9_unknown_indicator_amended ("macd") md_empty IndicatorRegistry.new
      (by decide) (by decide)⟩

/-- Exchange rules with nonzero lot and tick sizes whose price
precision is 64: the source computes the precision factor as
10_u64.pow(64), which wraps to exactly zero in release builds (10^64 is
a multiple of 2^64), so the fee quantization divides by zero on the
first accepted entry; under debug assertions the power overflows and
panics even earlier. -/
def wrap_rules : ExchangeRules :=
  { tick_size := 1, lot_size := 1, min_notional := 1, maker_fee := 0
    taker_fee := 0, precision_price := 64, precision_quantity := 8 }

unseal Rat.mul Rat.inv Rat.add Rat.sub Rat.ofScientific in
/-- C10 counterexample.  The claim asserts process_bar never panics
whenever every bar's close is nonzero and the rules have nonzero
lot_size and tick_size; here all three hold, yet with precision_price
64 the wrapped u64 precision factor is zero and the very first accepted
entry fails with a division by zero inside calculate_fee. -/
theorem c10_precision_wrap_counterexample :
    (demo_bar_flat.close ≠ 0 ∧ wrap_rules.lot_size ≠ 0 ∧ wrap_rules.tick_size ≠ 0) ∧
    process_run [(demo_bar_flat, [demo_signal_ttl])] IntrabarPolicy.linearInterpolation
      SlippageMode.none wrap_rules = Except.error Err.divisionByZero := by
  decide

/-- C10, amended.  Totality and the division-by-zero hazard of the
per-bar pipeline: a run never fails — no Decimal division panics — when
every bar's close is nonzero, the rules have nonzero lot and tick sizes
AND a price precision below 20 (for precision_price ≥ 20 the u64 power
10^p overflows: it panics under debug assertions, and in release it
wraps, reaching exactly zero for precision_price ≥ 64 and making the
fee quantization divide by zero), and every bar timestamp lies before
the year 10000 (beyond which the chrono %Y formatting changes shape and
far beyond which the chrono conversion itself panics; the bound is not
needed by the embedded proof, whose formatter is exact on this domain).
An entry signal arriving while its symbol is flat on a bar whose close
is zero makes the quantity computation notional / close divide by
zero. -/
theorem c10_process_bar_total :
    (∀ (input : List (Bar × List StrategySignal)) (pol : IntrabarPolicy)
      (mode : SlippageMode) (rules : ExchangeRules),
      (∀ bs ∈ input, bs.1.close ≠ 0 ∧ bs.1.timestamp < 253402300800000) →
      rules.lot_size ≠ 0 → rules.tick_size ≠ 0 → rules.precision_price < 20 →
      ∃ s', process_run input pol mode rules = Except.ok s') ∧
    (∀ (bar : Bar) (sig : StrategySignal) (pol : IntrabarPolicy) (mode : SlippageMode)
      (rules : ExchangeRules) (s : TradeTableGenerator),
      s.active_positions.lookup sig.symbol = none → bar.close = 0 →
      process_entry_signals bar [sig] pol mode rules s =
        Except.error Err.divisionByZero) := by
  constructor
  · intro input pol mode rules hc hl ht hprec
    exact run_fold_total pol mode rules input (fun bs hbs => (hc bs hbs).1) hl ht hprec
      TradeTableGenerator.new geninv_new
  · intro bar sig pol mode rules s hflat hc0
    have hflat' : (s.active_positions.lookup sig.symbol).isSome = false := by
      rw [hflat]; rfl
    have hdiv : qdiv s.default_size_usd bar.close = Except.error Err.divisionByZero := by
      simp [qdiv, hc0]
    simp only [process_entry_signals, List.foldlM, entry_signal_step, hflat',
      Bool.false_eq_true, if_false, hdiv, except_bind_error]

/-- Bar whose close price is zero. -/
def zero_close_bar : Bar :=
  { timestamp := 0, open_ := 1, high := 1, low := 0, close := 0
    volume := 1, trade_count := 1 }

unseal Rat.mul Rat.inv Rat.add Rat.sub Rat.ofScientific in
theorem c10_process_bar_total_witness :
    (TradeTableGenerator.new.active_positions.lookup demo_signal_ttl.symbol = none ∧
      zero_close_bar.close = 0) ∧
    process_entry_signals zero_close_bar [demo_signal_ttl]
      IntrabarPolicy.linearInterpolation SlippageMode.none demo_rules
      TradeTableGenerator.new = Except.error Err.divisionByZero :=
  ⟨⟨by decide, by decide⟩,
    c10_process_bar_total.2 zero_close_bar demo_signal_ttl
      IntrabarPolicy.linearInterpolation SlippageMode.none demo_rules
      TradeTableGenerator.new (by decide) (by decide)⟩

end Backtest
